import Mathlib

/-!
Verification of the document-intelligence core of a contractor-estimating
backend.  The Python services under `backend/app/services/` are shallowly
embedded: text is a `List Char`, JSON payloads are an inductive `Json`,
database/LLM collaborators are passed in as explicit arguments (with
`Option` results modelling calls that may raise), and every numeric field
is an exact rational.  Definitions follow the Python sources
(`embedding.py`, `pricing_extractor.py`, `format_extractor.py`, `chat.py`)
function by function.
-/

namespace Remodly

/-- Python whitespace class `\s` restricted to ASCII, as used by
`str.strip()` and the regex character class `\s`. -/
def isPySpace (c : Char) : Bool :=
  c = ' ' || c = '\t' || c = '\n' || c = '\r' || c = '\x0b' || c = '\x0c'

/-- Python `str.strip()`: remove leading and trailing whitespace. -/
def pyStrip (l : List Char) : List Char :=
  ((l.dropWhile isPySpace).reverse.dropWhile isPySpace).reverse

/-- Python slice `t[s:e]` for `s ≤ e` (indices clamp to the length). -/
def sliceC (t : List Char) (s e : Nat) : List Char :=
  (t.take e).drop s

/-- `EmbeddingService.CHUNK_SIZE`. -/
def CHUNK_SIZE : Nat := 1000

/-- `EmbeddingService.CHUNK_OVERLAP`. -/
def CHUNK_OVERLAP : Nat := 200

/-- The sentence-terminal sequences probed by `chunk_text`, in source order:
`['. ', '.\n', '! ', '!\n', '? ', '?\n']`. -/
def sentencePuncts : List (List Char) :=
  [['.', ' '], ['.', '\n'], ['!', ' '], ['!', '\n'], ['?', ' '], ['?', '\n']]

/-- Does pattern `p` occur in `w` starting at index `i`?  (Used to model
Python `str.rfind`.) -/
def matchesAt (w p : List Char) (i : Nat) : Bool :=
  p.isPrefixOf (w.drop i)

/-- Python `w.rfind(p)`: the largest index at which `p` occurs in `w`,
or `none` when absent (Python returns `-1`). -/
def rfindIdx (w p : List Char) : Option Nat :=
  (((List.range (w.length + 1)).filter (fun i => matchesAt w p i)).getLast?)

/-- The sentence-boundary search of `chunk_text`: over the window
`text[start:start+CHUNK_SIZE]`, try each punctuation mark in order and take
the first whose last occurrence lies past the window midpoint
(`last_punct > CHUNK_SIZE // 2`).  Returns the offset of the new window end
relative to `start` (`last_punct + len(punct)`), bundled with the proof
that it lies past the midpoint (which is what makes the loop advance). -/
def sentenceCut (w : List Char) : Option {off : Nat // 500 < off} :=
  sentencePuncts.findSome? fun p =>
    match rfindIdx w p with
    | some i => if h : 500 < i then some ⟨i + p.length, by omega⟩ else none
    | none => none

/-- The window end chosen by one iteration of the `chunk_text` loop:
`end = start + CHUNK_SIZE`, moved back to a sentence boundary when the
window is interior (`end < len(text)`) and a qualifying boundary exists. -/
def chunkEnd (t : List Char) (s : Nat) : Nat :=
  let e := s + CHUNK_SIZE
  if e < t.length then
    match sentenceCut (sliceC t s e) with
    | some off => s + off.val
    | none => e
  else e

/-- The `while start < len(text)` loop of `EmbeddingService.chunk_text`:
emit `text[start:end].strip()` when non-empty, then advance
`start := end - CHUNK_OVERLAP`. -/
def chunkLoop (t : List Char) (s : Nat) : List (List Char) :=
  if s < t.length then
    let e := chunkEnd t s
    let c := pyStrip (sliceC t s e)
    if c = [] then chunkLoop t (e - CHUNK_OVERLAP)
    else c :: chunkLoop t (e - CHUNK_OVERLAP)
  else []
  termination_by t.length - s
  decreasing_by
  all_goals
    rename_i h
    have hb : s + 300 < chunkEnd t s := by
      unfold chunkEnd
      simp only [CHUNK_SIZE]
      split
      · split
        · rename_i off heq
          have := off.property
          omega
        · omega
      · omega
    simp only [CHUNK_OVERLAP]
    omega

/-- `EmbeddingService.chunk_text`: texts no longer than one chunk are
returned whole (or dropped when empty); longer texts go through the
overlapping-window loop. -/
def chunk_text (t : List Char) : List (List Char) :=
  if t = [] then []
  else if t.length ≤ CHUNK_SIZE then [t]
  else chunkLoop t 0

/-- The sequence of `(start, end)` index windows traversed by the
`chunk_text` loop (specification device for the reconstruction proof;
`end` is recorded unclamped, exactly as the Python variable holds it). -/
def chunkSpans (t : List Char) (s : Nat) : List (Nat × Nat) :=
  if s < t.length then (s, chunkEnd t s) :: chunkSpans t (chunkEnd t s - CHUNK_OVERLAP)
  else []
  termination_by t.length - s
  decreasing_by
    rename_i h
    have hb : s + 300 < chunkEnd t s := by
      unfold chunkEnd
      simp only [CHUNK_SIZE]
      split
      · split
        · rename_i off heq
          have := off.property
          omega
        · omega
      · omega
    simp only [CHUNK_OVERLAP]
    omega

/-- Concatenation of a span list with the fixed `CHUNK_OVERLAP`-character
overlap region removed from every span after the first (the claimed
reconstruction operator). -/
def spanJoin (t : List Char) : List (Nat × Nat) → List Char
  | [] => []
  | sp :: rest =>
      sliceC t sp.1 sp.2 ++ (rest.map (fun q => (sliceC t q.1 q.2).drop CHUNK_OVERLAP)).flatten

/-- ASCII letter, the regex class `[a-zA-Z]`. -/
def isAsciiLetter (c : Char) : Bool :=
  ('a' ≤ c && c ≤ 'z') || ('A' ≤ c && c ≤ 'Z')

/-- ASCII digit, the regex class `\d`. -/
def isAsciiDigit (c : Char) : Bool :=
  '0' ≤ c && c ≤ '9'

/-- Regex word character `\w` (ASCII), used for the `\b` boundary test. -/
def isWordChar (c : Char) : Bool :=
  isAsciiLetter c || isAsciiDigit c || c = '_'

/-- A `\b` word boundary holds after a literal word when the rest of the
line starts with a non-word character (or is empty). -/
def atBoundary (rest : List Char) : Bool :=
  match rest with
  | [] => true
  | c :: _ => !isWordChar c

/-- Case-insensitive ASCII lowering, Python `str.lower()` on these inputs. -/
def lowerChars (l : List Char) : List Char :=
  l.map Char.toLower

/-- Case-insensitive literal-prefix test: does `rest` start with the
(lower-case) word `w`? -/
def ciHasPrefixWord (w rest : List Char) : Bool :=
  w.isPrefixOf (lowerChars (rest.take w.length))

/-- One alternative of a room/trade/document-section pattern: the literal
word (stored lower-case) plus whether the source wrote a trailing `s?`. -/
structure AltWord where
  word : List Char
  optS : Bool
deriving Repr

/-- Match one alternative at the start of `rest`, honouring the trailing
`s?` and the `\b` that follows the group in every such pattern; returns the
captured text in its original case (regex `group(1)`). -/
def matchAltAt (rest : List Char) (a : AltWord) : Option (List Char) :=
  if ciHasPrefixWord a.word rest then
    let n := a.word.length
    if atBoundary (rest.drop n) then some (rest.take n)
    else if a.optS &&
        (match (rest.drop n).head? with
         | some c => c.toLower = 's'
         | none => false) &&
        atBoundary (rest.drop (n + 1)) then some (rest.take (n + 1))
    else none
  else none

/-- The optional `(?:#{1,3}\s*)?` prefix shared by the word-alternation
patterns: since no alternative starts with `#` or whitespace, the regex
either consumes 1-3 leading `#` plus all following whitespace, or nothing;
four or more `#` make every alternation pattern fail. -/
def stripHashes (line : List Char) : Option (List Char) :=
  match line.head? with
  | some '#' =>
      let k := (line.takeWhile (fun c => c = '#')).length
      if k ≤ 3 then some ((line.drop k).dropWhile isPySpace) else none
  | _ => some line

/-- Match a full `^(?:#{1,3}\s*)?(alt1|alt2|...)\b` pattern against a line
(`re.match`, `re.IGNORECASE`): alternatives are tried left to right. -/
def matchAlts (line : List Char) (alts : List AltWord) : Option (List Char) :=
  match stripHashes line with
  | none => none
  | some rest => alts.findSome? (matchAltAt rest)

/-- Match `^(?:section\s*)?\d+[.:]\s*([a-zA-Z][a-zA-Z\s]+)`: an optional
`section` keyword, digits, a dot or colon, whitespace, then a captured run
of at least two letters/spaces starting with a letter. -/
def matchNumbered (line : List Char) : Option (List Char) :=
  let rest :=
    if ciHasPrefixWord "section".toList line then
      (line.drop 7).dropWhile isPySpace
    else line
  let ds := rest.takeWhile isAsciiDigit
  if ds = [] then none
  else
    let r2 := rest.drop ds.length
    match r2.head? with
    | some c =>
        if c = '.' || c = ':' then
          let r3 := (r2.drop 1).dropWhile isPySpace
          match r3.head? with
          | some a =>
              if isAsciiLetter a then
                let body := (r3.drop 1).takeWhile (fun c => isAsciiLetter c || isPySpace c)
                if body = [] then none else some (r3.take (1 + body.length))
              else none
          | none => none
        else none
    | none => none

/-- Match `^([A-Z][A-Z\s]{3,30}):?\s*$` under `re.IGNORECASE` on an
already-stripped line: a letter followed by 3-30 letters/spaces making up
the whole line, optionally ending in a colon. -/
def matchAllCaps (line : List Char) : Option (List Char) :=
  match line.head? with
  | some c =>
      if isAsciiLetter c then
        let run := line.takeWhile (fun c => isAsciiLetter c || isPySpace c)
        let rest := line.drop run.length
        if rest = [] then
          if 4 ≤ run.length && run.length ≤ 31 then some run else none
        else if rest = [':'] then
          if 4 ≤ run.length && run.length ≤ 31 then some run else none
        else none
      else none
  | none => none

/-- One entry of `EmbeddingService.SECTION_PATTERNS`. -/
inductive SecPat where
  | alts (l : List AltWord)
  | numbered
  | allCaps

/-- Shorthand for a plain alternative. -/
def aw (s : String) : AltWord := ⟨s.toList, false⟩

/-- Shorthand for an alternative written with a trailing `s?`. -/
def awS (s : String) : AltWord := ⟨s.toList, true⟩

/-- `EmbeddingService.SECTION_PATTERNS`, in source order. -/
def SECTION_PATTERNS : List SecPat :=
  [ .alts [aw "bathroom", aw "master bath", aw "guest bath", aw "half bath", aw "powder room"],
    .alts [aw "kitchen", aw "kitchenette"],
    .alts [aw "bedroom", aw "master bedroom", aw "guest room"],
    .alts [aw "living room", aw "family room", aw "great room", aw "den"],
    .alts [aw "dining room", aw "breakfast nook"],
    .alts [aw "basement", aw "cellar", aw "lower level"],
    .alts [aw "garage", aw "carport"],
    .alts [aw "attic", aw "loft"],
    .alts [aw "laundry", aw "utility room", aw "mudroom"],
    .alts [aw "exterior", aw "outdoor", aw "patio", aw "deck", aw "porch"],
    .alts [aw "electrical", aw "electric", aw "wiring"],
    .alts [aw "plumbing", awS "pipe", aw "water"],
    .alts [aw "hvac", aw "heating", aw "cooling", aw "air conditioning"],
    .alts [aw "roofing", aw "roof"],
    .alts [aw "flooring", awS "floor", aw "tile", aw "hardwood", aw "carpet"],
    .alts [aw "painting", aw "paint"],
    .alts [aw "drywall", aw "sheetrock", awS "wall"],
    .alts [aw "framing", aw "structural"],
    .alts [aw "insulation"],
    .alts [awS "window", awS "door"],
    .alts [aw "siding", aw "exterior finish"],
    .alts [aw "scope of work", aw "project scope"],
    .alts [awS "material", aw "supplies"],
    .alts [aw "labor", aw "installation"],
    .alts [aw "demolition", aw "demo"],
    .alts [aw "permit", aw "permits"],
    .alts [aw "total", aw "summary", aw "grand total"],
    .alts [aw "terms", aw "payment", aw "conditions"],
    .alts [awS "exclusion", aw "not included"],
    .alts [awS "assumption", awS "allowance"],
    .numbered,
    .allCaps ]

/-- Dispatch one pattern against a (stripped) line. -/
def matchSecPat (line : List Char) : SecPat → Option (List Char)
  | .alts l => matchAlts line l
  | .numbered => matchNumbered line
  | .allCaps => matchAllCaps line

/-- The normalisation applied to a captured header:
`re.sub(r'[:#\d\.\s]+$', '', section).strip().lower()`. -/
def normalizeSection (s : List Char) : List Char :=
  let trimmed :=
    (s.reverse.dropWhile (fun c =>
      c = ':' || c = '#' || isAsciiDigit c || c = '.' || isPySpace c)).reverse
  lowerChars (pyStrip trimmed)

/-- `EmbeddingService._detect_section`: strip the line, reject empty or
over-80-character lines, try the patterns in order, and normalise the first
capture (an empty normalisation yields `None`). -/
def detectSection (line : List Char) : Option (List Char) :=
  let l := pyStrip line
  if l = [] || 80 < l.length then none
  else
    match SECTION_PATTERNS.findSome? (matchSecPat l) with
    | some cap =>
        let sec := normalizeSection cap
        if sec = [] then none else some sec
    | none => none

/-- One entry of the `sections` list built by `chunk_text_by_sections`. -/
structure DocSection where
  label : Option (List Char)
  content : List Char
  index : Nat
deriving DecidableEq

/-- A chunk with section metadata (the `SectionChunk` TypedDict). -/
structure SectionChunk where
  text : List Char
  «section» : Option (List Char)
  section_index : Nat
deriving DecidableEq

/-- Python `'\n'.join(...)` over the accumulated lines of a section. -/
def joinNl (ls : List (List Char)) : List Char :=
  (ls.intersperse ['\n']).flatten

/-- The line scan of `chunk_text_by_sections`: accumulate lines, closing
the current section whenever a new header is detected; `cur` is
`current_section`, `content` is `current_content` (in order), `idx` is
`section_index`. -/
def scanSections (cur : Option (List Char)) (content : List (List Char)) (idx : Nat) :
    List (List Char) → List DocSection
  | [] =>
      match content with
      | [] => []
      | _ =>
          let c := pyStrip (joinNl content)
          if c = [] then [] else [⟨cur, c, idx⟩]
  | line :: rest =>
      match detectSection line with
      | some detected =>
          match content with
          | [] => scanSections (some detected) [line] idx rest
          | _ =>
              let c := pyStrip (joinNl content)
              if c = [] then scanSections (some detected) [line] idx rest
              else ⟨cur, c, idx⟩ :: scanSections (some detected) [line] (idx + 1) rest
      | none => scanSections cur (content ++ [line]) idx rest

/-- The `sections` list that `chunk_text_by_sections` builds for a text. -/
def buildSections (t : List Char) : List DocSection :=
  scanSections none [] 0 (t.splitOn '\n')

/-- Python truthiness of the optional section label
(`not sections[0].get('section')`). -/
def labelTruthy : Option (List Char) → Bool
  | some l => l ≠ []
  | none => false

/-- The fall-back test of `chunk_text_by_sections`:
`(len(sections) <= 1 and not sections[0].get('section')) if sections else True`. -/
def sectionsFallback (secs : List DocSection) : Bool :=
  match secs with
  | [] => true
  | [s] => !labelTruthy s.label
  | _ => false

/-- `EmbeddingService.chunk_text_by_sections`. -/
def chunk_text_by_sections (t : List Char) : List SectionChunk :=
  if t = [] then []
  else
    let secs := buildSections t
    if sectionsFallback secs then
      (chunk_text t).enum.map (fun ic => ⟨ic.2, none, ic.1⟩)
    else
      (secs.map (fun sec =>
        if sec.content.length ≤ CHUNK_SIZE then
          [SectionChunk.mk sec.content sec.label sec.index]
        else
          (chunk_text sec.content).map (fun c => SectionChunk.mk c sec.label sec.index))).flatten

/-! ### JSON values

LLM responses and `jsonb` columns are arbitrary JSON; numbers are modelled
as exact rationals. -/

/-- A JSON value (Python objects decoded by `json.loads`). -/
inductive Json where
  | null
  | bool (b : Bool)
  | num (q : Rat)
  | str (s : String)
  | arr (l : List Json)
  | obj (l : List (String × Json))

/-- Structural equality on JSON values (Python `==` on decoded JSON). -/
def Json.beq : Json → Json → Bool
  | .null, .null => true
  | .bool a, .bool b => a = b
  | .num a, .num b => a = b
  | .str a, .str b => a = b
  | .arr a, .arr b => beqList a b
  | .obj a, .obj b => beqObj a b
  | _, _ => false
where
  beqList : List Json → List Json → Bool
    | [], [] => true
    | x :: xs, y :: ys => Json.beq x y && beqList xs ys
    | _, _ => false
  beqObj : List (String × Json) → List (String × Json) → Bool
    | [], [] => true
    | (k, v) :: xs, (k2, v2) :: ys => k = k2 && Json.beq v v2 && beqObj xs ys
    | _, _ => false

/-- Python truthiness of a decoded JSON value (`bool(x)`). -/
def jsonTruthy : Json → Bool
  | .null => false
  | .bool b => b
  | .num q => q ≠ 0
  | .str s => s ≠ ""
  | .arr l => !l.isEmpty
  | .obj l => !l.isEmpty

/-- Python `d.get(k)` on a decoded JSON object: `none` both when the key is
absent and when the value is not an object. -/
def Json.get (j : Json) (k : String) : Option Json :=
  match j with
  | .obj l => (l.find? (fun p => p.1 = k)).map Prod.snd
  | _ => none

/-- Python `d.get(k, default)`. -/
def Json.getD (j : Json) (k : String) (default : Json) : Json :=
  (j.get k).getD default

/-! ### Pricing extractor (`pricing_extractor.py`) -/

/-- `PricingExtractorService._validate_pricing_data`: the persistence gate.
`has_line_items` demands a non-empty list; `has_summary` demands a dict
whose `grand_total` is *truthy* (so `null`, `0`, `false` and `""` all
fail). -/
def _validate_pricing_data (data : Json) : Bool :=
  match data with
  | .obj _ =>
      let has_line_items :=
        match data.get "line_items" with
        | some (.arr l) => !l.isEmpty
        | _ => false
      let has_summary :=
        match data.get "summary" with
        | some (.obj s) => jsonTruthy ((Json.obj s).getD "grand_total" .null)
        | _ => false
      has_line_items || has_summary
  | _ => false

/-- The claim's persistence condition, read off the specification text:
the parsed output has at least one line item, or a non-null `grand_total`
in its summary.  (Refinement counterpart of `_validate_pricing_data`.) -/
def specPricingPersistCond (data : Json) : Bool :=
  let hasLineItem :=
    match data.get "line_items" with
    | some (.arr (_ :: _)) => true
    | _ => false
  let nonNullGrandTotal :=
    match data.get "summary" with
    | some s =>
        match s.get "grand_total" with
        | some .null => false
        | some _ => true
        | none => false
    | none => false
  hasLineItem || nonNullGrandTotal

/-- The decision core of `extract_pricing_from_document`, after the LLM
response has been parsed: `strippedLen` is `len(text.strip())`, `parsed`
is the `_parse_json_response` result (`none` also models the LLM call
raising, which the surrounding `try` turns into `None`).  Returns the
function's return value together with whether `_store_pricing_data` ran,
i.e. whether a `document_pricing` row was written.  Reprocessing a
document goes through this same function. -/
def extract_pricing_from_document (strippedLen : Nat) (parsed : Option Json) :
    Option Json × Bool :=
  if strippedLen < 50 then (none, false)
  else
    match parsed with
    | none => (none, false)
    | some data =>
        if _validate_pricing_data data then (some data, true) else (none, false)

/-- A row returned by the vector-search RPC (`match_document_embeddings`):
the fields `find_similar_projects` and `search_similar` read. -/
structure ChunkMatch where
  document_id : Option String
  similarity : Option Rat
deriving DecidableEq

/-- `EmbeddingService.search_similar`, with the two external calls passed
in: `embedding` is the query-embedding call (`none` = it raised) and
`rpcRows` the vector-search RPC (`none` = it raised, `some rows` its
`data or []`).  Both failure branches return `[]`; surviving rows are
filtered by `row.get("similarity", 0) >= min_similarity`. -/
def search_similar (embedding : Option (List Rat)) (rpcRows : Option (List ChunkMatch))
    (min_similarity : Rat) : List ChunkMatch :=
  match embedding with
  | none => []
  | some _ =>
      match rpcRows with
      | none => []
      | some rows => rows.filter (fun m => min_similarity ≤ m.similarity.getD 0)

/-- A `document_pricing` row (columns written by `_store_pricing_data`,
plus the `match_score` of the keyword RPC and the `similarity` key that
`find_similar_projects` adds).  The numeric columns are `DECIMAL`-typed in
the store, hence `Option Rat`; `line_items` is a `jsonb` payload. -/
structure PricingRow where
  document_id : Option String
  project_type : Option String
  project_date : Option String
  total_amount : Option Rat
  labor_total : Option Rat
  materials_total : Option Rat
  line_items : Json
  confidence_score : Option Rat
  match_score : Option Rat
  similarity : Option Rat

/-- The fixed keyword vocabulary of `_extract_scope_keywords`. -/
def keyword_patterns : List String :=
  [ "bathroom", "kitchen", "bedroom", "living room", "basement",
    "attic", "garage", "laundry", "deck", "patio",
    "remodel", "renovation", "addition", "repair", "replace",
    "install", "upgrade", "demo", "demolition",
    "plumbing", "electrical", "hvac", "roofing", "flooring",
    "painting", "drywall", "framing", "insulation",
    "shower", "tub", "vanity", "toilet", "sink", "faucet",
    "cabinets", "countertop", "backsplash", "tile", "hardwood",
    "window", "door", "lighting" ]

/-- Does `needle` occur as a contiguous sub-list of `hay`? -/
def isSubChars (needle : List Char) : List Char → Bool
  | [] => needle.isEmpty
  | c :: t => needle.isPrefixOf (c :: t) || isSubChars needle t

/-- Python `needle in hay` on strings. -/
def strContainsSub (hay needle : String) : Bool :=
  needle.isEmpty || isSubChars needle.toList hay.toList

/-- `PricingExtractorService._extract_scope_keywords`: the vocabulary words
occurring in the lower-cased description, capped at 10. -/
def _extract_scope_keywords (description : String) : List String :=
  let dl := String.mk (lowerChars description.toList)
  (keyword_patterns.filter (fun k => strContainsSub dl k)).take 10

/-- `PricingExtractorService._find_similar_projects_by_keywords`: run the
`find_similar_projects` RPC on the extracted keywords (`kwRpc keywords
limit`, `none` = it raised, caught and turned into `[]`), then discard
zero-overlap rows (`match_score > 0`). -/
def _find_similar_projects_by_keywords (kwRpc : List String → Nat → Option (List PricingRow))
    (scope_description : String) (limit : Nat) : List PricingRow :=
  let keywords := _extract_scope_keywords scope_description
  match kwRpc keywords limit with
  | none => []
  | some rows => rows.filter (fun p => 0 < p.match_score.getD 0)

/-- Keep the first occurrence of every string
(`list(set(...))` modelled with first-occurrence order; CPython set
iteration order is hash-dependent, which no order-sensitive claim relies
on). -/
def dedupFirst : List String → List String
  | [] => []
  | x :: xs => x :: dedupFirst (xs.filter (fun y => y ≠ x))
  termination_by l => l.length
  decreasing_by
    have := List.length_filter_le (fun y => y ≠ x) xs
    simp only [List.length_cons]
    omega

/-- Step 2 of `find_similar_projects`: the distinct truthy `document_id`s
of the matched chunks. -/
def docIdsOf (chunks : List ChunkMatch) : List String :=
  dedupFirst (chunks.filterMap fun c =>
    match c.document_id with
    | some d => if d ≠ "" then some d else none
    | none => none)

/-- Update the `doc_similarity` map:
`doc_similarity[d] = max(doc_similarity.get(d, 0), s)`. -/
def updateMaxSim : List (String × Rat) → String → Rat → List (String × Rat)
  | [], d, s => [(d, max 0 s)]
  | (k, v) :: rest, d, s =>
      if k = d then (k, max v s) :: rest else (k, v) :: updateMaxSim rest d s

/-- The `doc_similarity` map of `find_similar_projects`: the maximum chunk
similarity observed per (truthy) document id. -/
def docSimilarity (chunks : List ChunkMatch) : List (String × Rat) :=
  chunks.foldl
    (fun m c =>
      match c.document_id with
      | some d => if d ≠ "" then updateMaxSim m d (c.similarity.getD 0) else m
      | none => m)
    []

/-- `doc_similarity.get(doc_id, 0)` (a missing or null document id also
falls to the default). -/
def lookupSim (m : List (String × Rat)) : Option String → Rat
  | some d => match m.find? (fun p => p.1 = d) with
              | some p => p.2
              | none => 0
  | none => 0

/-- Stable insertion (descending by the `similarity` key) modelling
Python's stable `list.sort(key=..., reverse=True)`. -/
def insertBySimDesc (x : PricingRow) : List PricingRow → List PricingRow
  | [] => [x]
  | y :: ys =>
      if y.similarity.getD 0 ≤ x.similarity.getD 0 then x :: y :: ys
      else y :: insertBySimDesc x ys

/-- Stable descending sort by the `similarity` key. -/
def sortBySimDesc : List PricingRow → List PricingRow
  | [] => []
  | x :: xs => insertBySimDesc x (sortBySimDesc xs)

/-- `PricingExtractorService.find_similar_projects`, with its collaborators
explicit: `chunks` is the `search_similar` result (that call cannot raise:
it returns `[]` on failure), `pricingQuery ids` the `document_pricing`
select for those ids (`none` = it raised, caught by the outer `except`
which falls back to keywords), `kwRpc` the keyword RPC.  Mirrors the
source: no chunks → keyword fallback; chunks but no truthy document ids →
`[]`; pricing rows found → ranked by max chunk similarity, capped at
`limit`; no pricing rows (or a raise) → keyword fallback. -/
def find_similar_projects (chunks : List ChunkMatch)
    (pricingQuery : List String → Option (List PricingRow))
    (kwRpc : List String → Nat → Option (List PricingRow))
    (scope_description : String) (limit : Nat) : List PricingRow :=
  if chunks = [] then _find_similar_projects_by_keywords kwRpc scope_description limit
  else
    let doc_ids := docIdsOf chunks
    if doc_ids = [] then []
    else
      match pricingQuery doc_ids with
      | none => _find_similar_projects_by_keywords kwRpc scope_description limit
      | some projects =>
          if projects.isEmpty then _find_similar_projects_by_keywords kwRpc scope_description limit
          else
            let sim := docSimilarity chunks
            let enriched := projects.map fun p =>
              { p with similarity := some (lookupSim sim p.document_id) }
            (sortBySimDesc enriched).take limit

/-! ### Format pattern aggregation (`format_extractor.py`) -/

/-- Typography sub-record of a `document_format_patterns` row. -/
structure Typography where
  primary_font : Option String
  heading_font : Option String
  body_font : Option String
  heading_sizes_h1 : Option Rat
  heading_sizes_h2 : Option Rat
  heading_sizes_h3 : Option Rat
  uses_bold_for_emphasis : Option Bool
  uses_italic_for_emphasis : Option Bool
deriving DecidableEq

/-- The all-`none` typography (`typo.get(...)` misses on every key). -/
def emptyTypography : Typography := ⟨none, none, none, none, none, none, none, none⟩

/-- Colors sub-record of a `document_format_patterns` row. -/
structure Colors where
  primary_text_color : Option String
  heading_color : Option String
  accent_color : Option String
deriving DecidableEq

/-- The all-`none` colors record. -/
def emptyColors : Colors := ⟨none, none, none⟩

/-- One `document_format_patterns` row as `_aggregate_patterns` reads it
(the columns written by `_store_format_patterns`). -/
structure FormatPatternRow where
  section_headers : Option (List String)
  numbering_style : Option String
  terminology : Option (List (String × Json))
  «structure» : Option (List (String × Json))
  pricing_format : Option String
  boilerplate_text : Option String
  typography : Option Typography
  colors : Option Colors
  confidence_score : Rat

/-- Python truthiness of an optional string (`if p.get(k):`). -/
def optStrTruthy : Option String → Bool
  | some s => s ≠ ""
  | none => false

/-- Python truthiness of an optional number (`if sizes.get(level):`). -/
def optNumTruthy : Option Rat → Bool
  | some q => q ≠ 0
  | none => false

/-- Add `w` to the count of key `s`, inserting at the back on first sight
(Python dict / `Counter` insertion order). -/
def addCount : List (String × Nat) → String → Nat → List (String × Nat)
  | [], s, w => [(s, w)]
  | (k, c) :: rest, s, w =>
      if k = s then (k, c + w) :: rest else (k, c) :: addCount rest s w

/-- Frequency table of a string list, keys in first-occurrence order
(Python `dict` built by repeated `+= 1`, or a `Counter`). -/
def countsFirstOcc (l : List String) : List (String × Nat) :=
  l.foldl (fun m s => addCount m s 1) []

/-- Stable insertion for a descending-by-count sort (Python's stable
`sorted(..., reverse=True)` and `Counter.most_common`, which break count
ties by insertion order). -/
def insertCountDesc (x : String × Nat) : List (String × Nat) → List (String × Nat)
  | [] => [x]
  | y :: ys => if y.2 ≤ x.2 then x :: y :: ys else y :: insertCountDesc x ys

/-- Stable descending sort by count. -/
def sortCountDesc : List (String × Nat) → List (String × Nat)
  | [] => []
  | x :: xs => insertCountDesc x (sortCountDesc xs)

/-- `Counter.most_common(n)`: the `n` highest-count keys, ties broken by
insertion order. -/
def mostCommon (n : Nat) (counts : List (String × Nat)) : List String :=
  ((sortCountDesc counts).map Prod.fst).take n

/-- `max(set(styles), key=styles.count)`: a maximal-count style.  CPython
iterates the set in hash order; the model takes the first occurrence among
maximal-count values, an arbitrary fixed choice no claim below depends
on. -/
def maxByCount (l : List String) : Option String :=
  match countsFirstOcc l with
  | [] => none
  | x :: xs => some (xs.foldl (fun b y => if b.2 < y.2 then y else b) x).1

/-- Python `sep.join(parts)`. -/
def pyJoinStr (sep : String) : List String → String
  | [] => ""
  | a :: rest => rest.foldl (fun acc x => acc ++ sep ++ x) a

/-- Python `repr`/`str` of a decoded JSON value, used by the source only
through `len(str(struct))` as a richness measure.  Strings are rendered
with plain single quotes (escaping is not reproduced) and numbers in
integer form when integral (the decimal rendering of non-integral floats
is not reproduced); no claim depends on those corner lengths. -/
def pyRepr : Json → String
  | .null => "None"
  | .bool b => if b then "True" else "False"
  | .num q => if q.den = 1 then toString q.num else toString q
  | .str s => "\x27" ++ s ++ "\x27"
  | .arr l => "[" ++ pyJoinStr ", " (reprList l) ++ "]"
  | .obj l => "\x7b" ++ pyJoinStr ", " (reprObj l) ++ "\x7d"
where
  reprList : List Json → List String
    | [] => []
    | x :: xs => pyRepr x :: reprList xs
  reprObj : List (String × Json) → List String
    | [] => []
    | (k, v) :: xs => ("\x27" ++ k ++ "\x27: " ++ pyRepr v) :: reprObj xs

/-- Keep the first occurrence of every JSON value under Python `==`
(`list(set(a + b))` modelled with first-occurrence order; CPython set
order is hash-dependent, which no claim below depends on). -/
def dedupFirstJson : List Json → List Json
  | [] => []
  | x :: xs => x :: dedupFirstJson (xs.filter (fun y => !Json.beq y x))
  termination_by l => l.length
  decreasing_by
    have := List.length_filter_le (fun y => !Json.beq y x) xs
    simp only [List.length_cons]
    omega

/-- Merge one pattern's terminology dict into the accumulator: a new key is
appended; when both values are lists they are unioned (deduplicated),
keeping the key's position; otherwise the first value wins. -/
def mergeTermOne (merged : List (String × Json)) (k : String) (v : Json) :
    List (String × Json) :=
  match merged.find? (fun p => p.1 = k) with
  | none => merged ++ [(k, v)]
  | some (_, old) =>
      match old, v with
      | .arr a, .arr b =>
          merged.map (fun p => if p.1 = k then (p.1, Json.arr (dedupFirstJson (a ++ b))) else p)
      | _, _ => merged

/-- The `merged_terminology` fold of `_aggregate_patterns`. -/
def mergeTerminology (patterns : List FormatPatternRow) : List (String × Json) :=
  patterns.foldl
    (fun merged p => (p.terminology.getD []).foldl (fun m kv => mergeTermOne m kv.1 kv.2) merged)
    []

/-- Round half to even to an integer (Python `round(x)`; the model rounds
the exact rational where Python rounds the nearest binary float, which
agrees except on floats that are not exactly representable ties). -/
def roundHalfEven (q : Rat) : Int :=
  let f := ⌊q⌋
  let r := q - (f : Rat)
  if r < 1 / 2 then f
  else if (1 : Rat) / 2 < r then f + 1
  else if f % 2 = 0 then f else f + 1

/-- The aggregated typography block returned by `_aggregate_patterns`
(note: a different shape from the per-row `Typography`). -/
structure AggTypography where
  primary_font : Option String
  fonts_used : List String
  heading_sizes_h1 : Option Int
  heading_sizes_h2 : Option Int
  heading_sizes_h3 : Option Int
  uses_bold_for_emphasis : Bool
  uses_italic_for_emphasis : Bool
deriving DecidableEq

/-- The aggregated colors block returned by `_aggregate_patterns`. -/
structure AggColors where
  primary_text_color : String
  colors_used : List String
deriving DecidableEq

/-- The dict returned by `_aggregate_patterns`. -/
structure AggregatedPatterns where
  section_headers : List String
  numbering_style : String
  terminology : List (String × Json)
  «structure» : List (String × Json)
  pricing_format : Option String
  typography : AggTypography
  colors : AggColors
  document_count : Nat

/-- The font counter fold: primary font weighted 2, heading and body
fonts 1, truthy values only, insertion order preserved. -/
def fontCounts (patterns : List FormatPatternRow) : List (String × Nat) :=
  patterns.foldl
    (fun fc p =>
      let typo := p.typography.getD emptyTypography
      let fc := match typo.primary_font with
                | some s => if s ≠ "" then addCount fc s 2 else fc
                | none => fc
      let fc := match typo.heading_font with
                | some s => if s ≠ "" then addCount fc s 1 else fc
                | none => fc
      match typo.body_font with
      | some s => if s ≠ "" then addCount fc s 1 else fc
      | none => fc)
    []

/-- The color counter fold: primary text color weighted 2, heading and
accent colors 1. -/
def colorCounts (patterns : List FormatPatternRow) : List (String × Nat) :=
  patterns.foldl
    (fun cc p =>
      let colors := p.colors.getD emptyColors
      let cc := match colors.primary_text_color with
                | some s => if s ≠ "" then addCount cc s 2 else cc
                | none => cc
      let cc := match colors.heading_color with
                | some s => if s ≠ "" then addCount cc s 1 else cc
                | none => cc
      match colors.accent_color with
      | some s => if s ≠ "" then addCount cc s 1 else cc
      | none => cc)
    []

/-- The truthy sizes collected for one heading level, in pattern order. -/
def headingSizesAt (patterns : List FormatPatternRow) (level : Typography → Option Rat) :
    List Rat :=
  patterns.filterMap fun p =>
    match level (p.typography.getD emptyTypography) with
    | some q => if q ≠ 0 then some q else none
    | none => none

/-- `round(sum(sizes) / len(sizes))` when any sizes were seen. -/
def meanSize (sizes : List Rat) : Option Int :=
  if sizes.isEmpty then none
  else some (roundHalfEven (sizes.sum / (sizes.length : Rat)))

/-- `FormatExtractorService._aggregate_patterns`. -/
def _aggregate_patterns (patterns : List FormatPatternRow) : AggregatedPatterns :=
  let all_headers := patterns.flatMap (fun p => p.section_headers.getD [])
  let unique_headers := mostCommon 15 (countsFirstOcc all_headers)
  let numbering_styles := patterns.filterMap fun p =>
    match p.numbering_style with
    | some s => if s ≠ "" then some s else none
    | none => none
  let most_common_style := (maxByCount numbering_styles).getD "decimal"
  let merged_terminology := mergeTerminology patterns
  let best_structure := patterns.foldl
    (fun best p =>
      let struct := p.structure.getD []
      if (pyRepr (Json.obj best)).length < (pyRepr (Json.obj struct)).length then struct
      else best)
    []
  let pricing_format := patterns.findSome? fun p =>
    match p.pricing_format with
    | some s => if s ≠ "" then some s else none
    | none => none
  let most_common_fonts := mostCommon 3 (fontCounts patterns)
  let bold_count := patterns.countP fun p =>
    (p.typography.getD emptyTypography).uses_bold_for_emphasis.getD false
  let italic_count := patterns.countP fun p =>
    (p.typography.getD emptyTypography).uses_italic_for_emphasis.getD false
  let most_common_colors := mostCommon 5 (colorCounts patterns)
  { section_headers := unique_headers
    numbering_style := most_common_style
    terminology := merged_terminology
    «structure» := best_structure
    pricing_format := pricing_format
    typography :=
      { primary_font := most_common_fonts.head?
        fonts_used := most_common_fonts
        heading_sizes_h1 := meanSize (headingSizesAt patterns Typography.heading_sizes_h1)
        heading_sizes_h2 := meanSize (headingSizesAt patterns Typography.heading_sizes_h2)
        heading_sizes_h3 := meanSize (headingSizesAt patterns Typography.heading_sizes_h3)
        uses_bold_for_emphasis := patterns.length < 2 * bold_count
        uses_italic_for_emphasis := patterns.length < 2 * italic_count }
    colors :=
      { primary_text_color := (most_common_colors.head?).getD "#000000"
        colors_used := most_common_colors }
    document_count := patterns.length }

/-! ### Historical pricing context (`chat.py`) -/

/-- `ChatService.PRICING_MODE_CRITERIA`. -/
def PRICING_MODE_CRITERIA : String := "criteria"

/-- Days in a month of the proleptic Gregorian calendar. -/
def daysInMonth (y m : Nat) : Nat :=
  let leap : Bool := (y % 4 = 0 && y % 100 ≠ 0) || y % 400 = 0
  match m with
  | 1 => 31 | 2 => if leap then 29 else 28 | 3 => 31 | 4 => 30
  | 5 => 31 | 6 => 30 | 7 => 31 | 8 => 31
  | 9 => 30 | 10 => 31 | 11 => 30 | 12 => 31
  | _ => 0

/-- Days in the months strictly before `m` of year `y`. -/
def daysBeforeMonth (y m : Nat) : Nat :=
  ((List.range (m - 1)).map (fun i => daysInMonth y (i + 1))).sum

/-- Python `date.toordinal()`: day number of `y-m-d` with 0001-01-01 = 1. -/
def dateOrdinal (y m d : Nat) : Nat :=
  365 * (y - 1) + ((y - 1) / 4 - (y - 1) / 100) + (y - 1) / 400 + daysBeforeMonth y m + d

/-- Python `date.fromisoformat` on the canonical `YYYY-MM-DD` strings that
`_store_pricing_data` writes (`date(...).isoformat()`): returns the
ordinal, or `none` when the string is not a valid canonical date (the
caller catches the `ValueError`). -/
def parseIsoDate (s : String) : Option Nat :=
  match s.splitOn "-" with
  | [ys, ms, ds] =>
      if ys.length = 4 && ms.length = 2 && ds.length = 2 &&
         ys.toList.all isAsciiDigit && ms.toList.all isAsciiDigit && ds.toList.all isAsciiDigit then
        match ys.toNat?, ms.toNat?, ds.toNat? with
        | some y, some m, some d =>
            if 1 ≤ y && 1 ≤ m && m ≤ 12 && 1 ≤ d && d ≤ daysInMonth y m then
              some (dateOrdinal y m d)
            else none
        | _, _, _ => none
      else none
  | _ => none

/-- Decimal digits of a natural number. -/
def natDigits (n : Nat) : List Char :=
  (toString n).toList

/-- Insert thousands separators (the `,` of the `,.2f` format spec). -/
def groupThousands (digits : List Char) : List Char :=
  let rev := digits.reverse
  let withSep := rev.enum.flatMap fun ic =>
    if ic.1 ≠ 0 && ic.1 % 3 = 0 then [',', ic.2] else [ic.2]
  withSep.reverse

/-- Python `format(x, ',.2f')`: round half-to-even to two decimals, group
the integer part by thousands. -/
def formatMoney (q : Rat) : String :=
  let cents := roundHalfEven (q * 100)
  let sign := if cents < 0 then "-" else ""
  let n := cents.natAbs
  let frac := n % 100
  let fracStr := (if frac < 10 then "0" else "") ++ toString frac
  sign ++ String.mk (groupThousands (natDigits (n / 100))) ++ "." ++ fracStr

/-- Python `format(x, '.0%')`: percentage rounded half-to-even to an
integer. -/
def formatPercent0 (q : Rat) : String :=
  toString (roundHalfEven (q * 100)) ++ "%"

/-- Round half to even at one decimal (Python `round(x, 1)`) and render it
the way an f-string renders the resulting float (one decimal digit). -/
def formatRound1 (q : Rat) : String :=
  let tenths := roundHalfEven (q * 10)
  let sign := if tenths < 0 then "-" else ""
  let n := tenths.natAbs
  sign ++ toString (n / 10) ++ "." ++ toString (n % 10)

/-- Python `sum` over the collected `confidence_score` values: any `None`
in the list (a SQL NULL delivered by `select("*")` as a present key) makes
`sum` raise `TypeError`, modelled by `none`. -/
def pySumOpt : List (Option Rat) → Option Rat
  | [] => some 0
  | none :: _ => none
  | some q :: rest => (pySumOpt rest).map (fun t => q + t)

/-- The literal block `_build_historical_pricing_context` returns when no
similar projects were found. -/
def historicalNoDataBlock : String :=
  "## Historical Pricing\n**⚠️ No similar historical projects found in your uploaded documents.**\n\nYour estimate will be based on configured labor rates and general industry standards.\nFor more accurate, company-specific pricing:\n- Upload past addendums or estimates for similar projects\n- The AI will then base estimates on YOUR actual historical pricing\n\n**IMPORTANT:** When no historical data is available, clearly state this to the user and explain that the estimate is based on industry averages, not company-specific data."

/-- Python `str(x)` on a decoded JSON value (used for `{item_name}` in an
f-string): strings print raw, everything else via `repr`. -/
def pyStr : Json → String
  | .str s => s
  | j => pyRepr j

/-- The inflation note for one project: parse the project date, and when it
is more than half a year old suggest ~4%/year (`round(years_old * 4, 1)`).
An unparseable date is swallowed (`except ValueError`), leaving the note
empty. -/
def inflationNote (today : Nat) (project_date : String) : String :=
  match parseIsoDate project_date with
  | none => ""
  | some ord =>
      let years_old : Rat := ((today : Int) - (ord : Int) : Int) / (365 : Rat)
      if 1 / 2 < years_old then
        " (add ~" ++ formatRound1 (years_old * 4) ++ "% for inflation)"
      else ""

/-- The per-item lines of the `Key Line Items` block: up to five dict
items whose `item_name` and `total_cost` are truthy.  A truthy
non-numeric `total_cost` makes Python's `,.2f` format raise (propagating
to the `except` of `_build_historical_pricing_context`), modelled by
`none`. -/
def lineItemLines : List Json → Option (List String)
  | [] => some []
  | item :: rest =>
      match lineItemLines rest with
      | none => none
      | some tail =>
          match item with
          | .obj _ =>
              let item_name := item.getD "item_name" (.str "")
              let item_cost := item.getD "total_cost" .null
              if jsonTruthy item_name && jsonTruthy item_cost then
                match item_cost with
                | .num q => some (("  - " ++ pyStr item_name ++ ": $" ++ formatMoney q) :: tail)
                | _ => none
              else some tail
          | _ => some tail

/-- The context lines contributed by one similar project (`none` = a
formatting error raised, caught by the outer `except`). -/
def projectLines (today : Nat) (i : Nat) (project : PricingRow) : Option (List String) :=
  let project_type := project.project_type.getD "Unknown"
  let note := match project.project_date with
              | some d => if d ≠ "" then inflationNote today d else ""
              | none => ""
  let header := "### Reference " ++ toString i ++ ": " ++ project_type ++
    (match project.project_date with
     | some d => if d ≠ "" then " (" ++ d ++ ")" else ""
     | none => "")
  let totalLines :=
    (if optNumTruthy project.total_amount then
      ["- **Total:** $" ++ formatMoney (project.total_amount.getD 0) ++ note] else []) ++
    (if optNumTruthy project.labor_total then
      ["- **Labor:** $" ++ formatMoney (project.labor_total.getD 0)] else []) ++
    (if optNumTruthy project.materials_total then
      ["- **Materials:** $" ++ formatMoney (project.materials_total.getD 0)] else [])
  match project.line_items with
  | .arr (x :: xs) =>
      match lineItemLines ((x :: xs).take 5) with
      | none => none
      | some itemLines =>
          some (header :: totalLines ++ ("- **Key Line Items:**" :: itemLines) ++ [""])
  | _ => some (header :: totalLines ++ [""])

/-- The reference blocks for all similar projects, numbered from 1. -/
def allProjectLines (today : Nat) (i : Nat) : List PricingRow → Option (List String)
  | [] => some []
  | p :: rest =>
      match projectLines today i p, allProjectLines today (i + 1) rest with
      | some l, some ls => some (l ++ ls)
      | _, _ => none

/-- `ChatService._build_historical_pricing_context`, with the
`find_similar_projects` result passed in (that call cannot raise: both its
failure paths return a list).  `today` is `date.today()` as an ordinal.
Criteria mode skips the block entirely; no similar projects yield the
explicit no-data block; otherwise the reference blocks are assembled, and
any error inside the `try` degrades to `""`.  The rows come from a
`select("*")`, so every row carries the `confidence_score` key and the
`p.get("confidence_score", 0.5)` default never fires: a SQL NULL arrives
as a present `None` (`Option.none` here), `sum(confidences)` then raises
`TypeError`, and the `except` returns `""` — modelled by `pySumOpt`. -/
def _build_historical_pricing_context (pricing_mode : String)
    (similar_projects : List PricingRow) (today : Nat) : String :=
  if pricing_mode = PRICING_MODE_CRITERIA then ""
  else if similar_projects.isEmpty then historicalNoDataBlock
  else
    match pySumOpt (similar_projects.map PricingRow.confidence_score) with
    | none => ""
    | some total =>
        let avg_confidence := total / (similar_projects.length : Rat)
        let header :=
          [ "## CRITICAL: Historical Pricing Data Available",
            "**Found " ++ toString similar_projects.length ++ " similar project(s) from your documents.**",
            "",
            "**INSTRUCTION:** Base your estimate primarily on these reference projects. Do NOT use generic industry averages when this data is available. Always cite which document(s) informed your pricing.",
            "" ]
        let withNote :=
          if avg_confidence < 7 / 10 then
            header ++ ["*Note: Data confidence is moderate (" ++ formatPercent0 avg_confidence ++
                       "). Some line items may be incomplete.*\n"]
          else header
        match allProjectLines today 1 similar_projects with
        | none => ""
        | some body => pyJoinStr "\n" (withNote ++ body)

/-- A line of 81 raw characters that `_detect_section` nevertheless
classifies: trailing whitespace is stripped before the length gate. -/
def overlongLine : List Char := "bathroom".toList ++ List.replicate 73 ' '

/-- A text whose section scan yields exactly one (labelled) section:
`kitchen` heads it, and the second line is not a header. -/
def oneSectionText : List Char := "kitchen\n$ 1,200.00".toList

/-- The claim's persistence condition with the truthiness the code actually
applies: at least one line item, or a *truthy* `grand_total` (non-null and
also non-zero / non-empty) in the summary. -/
def specPricingPersistCondAmended (data : Json) : Bool :=
  let hasLineItem :=
    match data.get "line_items" with
    | some (.arr (_ :: _)) => true
    | _ => false
  let truthyGrandTotal :=
    match data.get "summary" with
    | some s => jsonTruthy (s.getD "grand_total" .null)
    | none => false
  hasLineItem || truthyGrandTotal

/-- A parsed extraction output whose summary carries the non-null (but
falsy) grand total `0` and no line items. -/
def zeroTotalOutput : Json :=
  Json.obj [("summary", Json.obj [("grand_total", Json.num 0)])]

/-- The concrete match row of the C7 witness. -/
def c7row : ChunkMatch := ChunkMatch.mk (some "d") (some (1/2))

/-- A pricing row as returned by the keyword RPC, with a positive overlap
score. -/
def c6kwRow : PricingRow :=
  { document_id := some "kd", project_type := none, project_date := none,
    total_amount := none, labor_total := none, materials_total := none,
    line_items := Json.null, confidence_score := none,
    match_score := some 1, similarity := none }

/-- A semantic-search result whose single chunk carries no document id. -/
def c6chunks : List ChunkMatch := [ChunkMatch.mk none (some (1/2))]

/-- A pricing store with no rows at all. -/
def c6pricing : List String → Option (List PricingRow) := fun _ => some []

/-- A keyword RPC that finds one overlapping project. -/
def c6kwRpc : List String → Nat → Option (List PricingRow) := fun _ _ => some [c6kwRow]

/-- Pricing store of the C6 witness. -/
def c6wPricing : List String → Option (List PricingRow) := fun _ => some []

/-- Keyword RPC of the C6 witness (no overlap rows). -/
def c6wKw : List String → Nat → Option (List PricingRow) := fun _ _ => some []

/-- A stored pricing row whose `jsonb` line items carry a truthy but
non-numeric `total_cost` (the LLM returned the amount as a string). -/
def c8badRow : PricingRow :=
  { document_id := none, project_type := some "bath", project_date := none,
    total_amount := none, labor_total := none, materials_total := none,
    line_items := Json.arr [Json.obj [("item_name", Json.str "x"), ("total_cost", Json.str "99")]],
    confidence_score := some 1, match_score := none, similarity := none }

/-- A stored pricing row whose `confidence_score` column is SQL NULL
(the LLM emitted `"confidence_score": null` and `_store_pricing_data`
inserted it as-is); `select("*")` delivers it as a present `None`. -/
def c8nullConfRow : PricingRow :=
  { document_id := none, project_type := some "bath", project_date := none,
    total_amount := some 8400, labor_total := none, materials_total := none,
    line_items := Json.null, confidence_score := none,
    match_score := none, similarity := none }

/-- A well-formed stored pricing row (numeric amounts only). -/
def c8goodRow : PricingRow :=
  { document_id := none, project_type := some "bathroom remodel", project_date := none,
    total_amount := some 8400, labor_total := none, materials_total := none,
    line_items := Json.null, confidence_score := some (9/10),
    match_score := none, similarity := none }

/-- A format-pattern row with every nullable column null. -/
def emptyPatternRow : FormatPatternRow :=
  { section_headers := none, numbering_style := none, terminology := none,
    «structure» := none, pricing_format := none, boilerplate_text := none,
    typography := none, colors := none, confidence_score := 1/2 }

/-- A row whose pricing format is described per line item. -/
def c4a : FormatPatternRow :=
  { emptyPatternRow with pricing_format := some "per line item", confidence_score := 9/10 }

/-- A row whose pricing format is a lump sum. -/
def c4b : FormatPatternRow :=
  { emptyPatternRow with pricing_format := some "lump sum", confidence_score := 1/2 }

/-- One truthiness-guarded counter update (the repeated
`if ...: counter[...] += w` step of the typography/color aggregation). -/
def addOptCount (fc : List (String × Nat)) (o : Option String) (w : Nat) :
    List (String × Nat) :=
  match o with
  | some s => if s ≠ "" then addCount fc s w else fc
  | none => fc

/-- A row with duplicate section headers and a heading-only typography. -/
def c5row : FormatPatternRow :=
  { emptyPatternRow with
    section_headers := some ["A", "A"],
    typography := some { emptyTypography with heading_font := some "Calibri" } }

/-! ## Theorems -/

/-- Every window end lies at least 301 characters past its start: the
sentence cut is only taken past the window midpoint (`> 500`) and the
plain window is `CHUNK_SIZE` long. -/
theorem chunkEnd_lb (t : List Char) (s : Nat) (h : s < t.length) :
    s + 300 < chunkEnd t s := by
  unfold chunkEnd
  simp only [CHUNK_SIZE]
  split
  · split
    · rename_i off _
      have := off.property
      omega
    · omega
  · omega

/-- Glueing a slice to the tail it ends at: for `a ≤ e`,
`t[a:e] ++ t[e:] = t[a:]`. -/
theorem sliceC_append_drop (t : List Char) (a e : Nat) (h : a ≤ e) :
    sliceC t a e ++ t.drop e = t.drop a := by
  unfold sliceC
  by_cases hl : e ≤ t.length
  · conv_rhs => rw [show t = t.take e ++ t.drop e from (List.take_append_drop e t).symm]
    rw [List.drop_append_eq_append_drop]
    have hlen : (t.take e).length = e := List.length_take_of_le hl
    rw [hlen]
    have : a - e = 0 := by omega
    rw [this, List.drop_zero]
  · push_neg at hl
    have h1 : t.take e = t := List.take_of_length_le (by omega)
    have h2 : t.drop e = [] := List.drop_eq_nil_of_le (by omega)
    rw [h1, h2, List.append_nil]

/-- Dropping `d` characters from a slice moves its start forward. -/
theorem sliceC_drop (t : List Char) (s e d : Nat) :
    (sliceC t s e).drop d = sliceC t (s + d) e := by
  unfold sliceC
  rw [List.drop_drop]

/-- The overlap-dropped suffix chunks starting at `s` concatenate to
`t[s+200:]`. -/
theorem chunkSpans_dropConcat (t : List Char) (s : Nat) :
    ((chunkSpans t s).map (fun q => (sliceC t q.1 q.2).drop CHUNK_OVERLAP)).flatten =
      t.drop (s + CHUNK_OVERLAP) := by
  induction s using chunkSpans.induct (t := t) with
  | case1 s h ih =>
      rw [chunkSpans, if_pos h]
      have hb := chunkEnd_lb t s h
      simp only [List.map_cons, List.flatten_cons, ih]
      rw [sliceC_drop]
      have h200 : chunkEnd t s - CHUNK_OVERLAP + CHUNK_OVERLAP = chunkEnd t s := by
        simp only [CHUNK_OVERLAP] at *
        omega
      rw [h200, sliceC_append_drop]
      simp only [CHUNK_OVERLAP] at *
      omega
  | case2 s h =>
      rw [chunkSpans, if_neg h]
      simp only [List.map_nil, List.flatten_nil]
      rw [List.drop_eq_nil_of_le]
      omega

/-- Removing the overlap from every span after the first and concatenating
recovers the suffix `t[s:]`. -/
theorem spanJoin_chunkSpans (t : List Char) (s : Nat) :
    spanJoin t (chunkSpans t s) = t.drop s := by
  by_cases h : s < t.length
  · rw [chunkSpans, if_pos h]
    simp only [spanJoin]
    rw [chunkSpans_dropConcat]
    have hb := chunkEnd_lb t s h
    have h200 : chunkEnd t s - CHUNK_OVERLAP + CHUNK_OVERLAP = chunkEnd t s := by
      simp only [CHUNK_OVERLAP] at *
      omega
    rw [h200, sliceC_append_drop]
    simp only [CHUNK_OVERLAP] at hb
    omega
  · rw [chunkSpans, if_neg h]
    simp only [spanJoin]
    rw [eq_comm, List.drop_eq_nil_iff]
    omega

/-- The chunk loop emits exactly the stripped window slices, dropping the
ones that strip to nothing. -/
theorem chunkLoop_eq_spans (t : List Char) (s : Nat) :
    chunkLoop t s =
      ((chunkSpans t s).map (fun sp => pyStrip (sliceC t sp.1 sp.2))).filter
        (fun c => !c.isEmpty) := by
  induction s using chunkLoop.induct (t := t) with
  | case1 s h e c hceq ih =>
      rw [chunkLoop.eq_def, if_pos h, chunkSpans.eq_def, if_pos h]
      have hc : pyStrip (sliceC t s (chunkEnd t s)) = [] := hceq
      have ih2 : chunkLoop t (chunkEnd t s - CHUNK_OVERLAP) =
          ((chunkSpans t (chunkEnd t s - CHUNK_OVERLAP)).map
            (fun sp => pyStrip (sliceC t sp.1 sp.2))).filter (fun c => !c.isEmpty) := ih
      simp [hc, ih2]
  | case2 s h e c hceq ih =>
      rw [chunkLoop.eq_def, if_pos h, chunkSpans.eq_def, if_pos h]
      have hc : ¬ pyStrip (sliceC t s (chunkEnd t s)) = [] := hceq
      have ih2 : chunkLoop t (chunkEnd t s - CHUNK_OVERLAP) =
          ((chunkSpans t (chunkEnd t s - CHUNK_OVERLAP)).map
            (fun sp => pyStrip (sliceC t sp.1 sp.2))).filter (fun c => !c.isEmpty) := ih
      simp [hc, ih2, List.isEmpty_iff]
  | case3 s h =>
      rw [chunkLoop.eq_def, if_neg h, chunkSpans.eq_def, if_neg h]
      simp

/-- Claim C3: for every text at least one chunk window long, removing the
fixed 200-character overlap region from every window after the first and
concatenating reconstructs the text exactly; and the chunks `chunk_text`
emits are precisely those windows whitespace-stripped at the cut points
(empty remainders dropped) — texts of exactly one window are returned
whole. -/
theorem C3_chunk_overlap_reconstruction (t : List Char) (h : CHUNK_SIZE ≤ t.length) :
    spanJoin t (chunkSpans t 0) = t ∧
      chunk_text t =
        (if t.length ≤ CHUNK_SIZE then [t]
         else ((chunkSpans t 0).map (fun sp => pyStrip (sliceC t sp.1 sp.2))).filter
            (fun c => !c.isEmpty)) := by
  constructor
  · rw [spanJoin_chunkSpans, List.drop_zero]
  · unfold chunk_text
    have ht : t ≠ [] := by
      intro he
      rw [he] at h
      simp only [List.length_nil, CHUNK_SIZE] at h
      omega
    rw [if_neg ht]
    split
    · rfl
    · exact chunkLoop_eq_spans t 0

/-- Witness for C3 at a concrete 1000-character text. -/
theorem C3_witness :
    CHUNK_SIZE ≤ (List.replicate 1000 'a').length ∧
      (spanJoin (List.replicate 1000 'a') (chunkSpans (List.replicate 1000 'a') 0) =
          List.replicate 1000 'a' ∧
        chunk_text (List.replicate 1000 'a') =
          (if (List.replicate 1000 'a').length ≤ CHUNK_SIZE then [List.replicate 1000 'a']
           else ((chunkSpans (List.replicate 1000 'a') 0).map
              (fun sp => pyStrip (sliceC (List.replicate 1000 'a') sp.1 sp.2))).filter
              (fun c => !c.isEmpty))) :=
  ⟨by rw [List.length_replicate]; norm_num [CHUNK_SIZE],
   C3_chunk_overlap_reconstruction _ (by rw [List.length_replicate]; norm_num [CHUNK_SIZE])⟩

/-- Claim C10: the `chunk_text` loop strictly advances — from any start
inside the text the chosen window end exceeds `start + CHUNK_OVERLAP`
(because a sentence cut is only taken past the window midpoint of 500),
so the next start `end - CHUNK_OVERLAP` is strictly larger and the loop
terminates (which is also what lets `chunkLoop` be defined by
well-founded recursion on `t.length - s`). -/
theorem C10_chunkLoop_advances (t : List Char) (s : Nat) (h : s < t.length) :
    s + CHUNK_OVERLAP < chunkEnd t s ∧ s < chunkEnd t s - CHUNK_OVERLAP := by
  have := chunkEnd_lb t s h
  simp only [CHUNK_OVERLAP]
  omega

/-- Witness for C10 at a concrete text and start index. -/
theorem C10_witness :
    0 < (['a', 'b'] : List Char).length ∧
      (0 + CHUNK_OVERLAP < chunkEnd ['a', 'b'] 0 ∧
        0 < chunkEnd ['a', 'b'] 0 - CHUNK_OVERLAP) :=
  ⟨by decide, C10_chunkLoop_advances ['a', 'b'] 0 (by decide)⟩

/-- Claim C9, counterexample: this 81-character line is classified as a
section header (`_detect_section` strips the line before measuring it), so
a line longer than 80 characters can be classified. -/
theorem C9_counterexample :
    80 < overlongLine.length ∧ detectSection overlongLine = some "bathroom".toList := by
  constructor
  · decide
  · decide

/-- Claim C9, amended: `_detect_section` never classifies a line whose
*stripped* form exceeds 80 characters — the length gate runs on
`line.strip()`, so raw trailing/leading whitespace does not count. -/
theorem C9_detect_length_gate (line : List Char) (h : 80 < (pyStrip line).length) :
    detectSection line = none := by
  unfold detectSection
  rw [if_pos]
  simp only [Bool.or_eq_true, decide_eq_true_eq]
  right
  exact h

/-- Witness for C9 at a concrete 81-letter line. -/
theorem C9_witness :
    80 < (pyStrip (List.replicate 81 'x')).length ∧
      detectSection (List.replicate 81 'x') = none :=
  ⟨by decide, C9_detect_length_gate _ (by decide)⟩

/-- Claim C2, counterexample: this text yields fewer than 2 sections, yet
`chunk_text_by_sections` does *not* fall back to unlabelled size-based
chunks — it emits a chunk labelled `kitchen`, because the code only falls
back when the single section is unlabelled. -/
theorem C2_counterexample :
    (buildSections oneSectionText).length < 2 ∧
      ¬ (∀ c ∈ chunk_text_by_sections oneSectionText, c.«section» = none) := by
  constructor
  · decide
  · decide

/-- Claim C2, amended: `chunk_text_by_sections` falls back to plain
size-based chunking (all chunks unlabelled) exactly when the section scan
built no section, or a single section carrying no label; when section
chunking is used, every section whose content is within the 1000-character
cap is emitted intact as one chunk carrying its label. -/
theorem C2_section_chunking (t : List Char) :
    (sectionsFallback (buildSections t) = true →
      ∀ c ∈ chunk_text_by_sections t, c.«section» = none) ∧
    (sectionsFallback (buildSections t) = false →
      ∀ s ∈ buildSections t, s.content.length ≤ CHUNK_SIZE →
        SectionChunk.mk s.content s.label s.index ∈ chunk_text_by_sections t) := by
  constructor
  · intro hf c hc
    unfold chunk_text_by_sections at hc
    by_cases ht : t = []
    · rw [if_pos ht] at hc
      simp at hc
    · rw [if_neg ht, if_pos hf] at hc
      obtain ⟨ic, _, rfl⟩ := List.mem_map.mp hc
      rfl
  · intro hf s hs hlen
    have ht : t ≠ [] := by
      intro he
      rw [he] at hf
      revert hf
      decide
    unfold chunk_text_by_sections
    rw [if_neg ht, if_neg (by rw [hf]; simp)]
    apply List.mem_flatten.mpr
    refine ⟨_, List.mem_map_of_mem _ hs, ?_⟩
    rw [if_pos hlen]
    exact List.mem_singleton.mpr rfl

/-- Witness for C2 at the one-section text (section-chunking branch). -/
theorem C2_witness :
    sectionsFallback (buildSections oneSectionText) = false ∧
      DocSection.mk (some "kitchen".toList) oneSectionText 0 ∈ buildSections oneSectionText ∧
      oneSectionText.length ≤ CHUNK_SIZE ∧
      SectionChunk.mk oneSectionText (some "kitchen".toList) 0 ∈
        chunk_text_by_sections oneSectionText :=
  ⟨by decide, by decide, by decide,
   (C2_section_chunking oneSectionText).2 (by decide)
     (DocSection.mk (some "kitchen".toList) oneSectionText 0) (by decide) (by decide)⟩

/-- The code's validation gate agrees with the truthiness-corrected
persistence condition. -/
theorem validate_eq_amended (data : Json) :
    _validate_pricing_data data = specPricingPersistCondAmended data := by
  cases data with
  | obj l =>
      unfold _validate_pricing_data specPricingPersistCondAmended
      have hli : (match (Json.obj l).get "line_items" with
            | some (.arr l2) => !l2.isEmpty
            | _ => false) =
          (match (Json.obj l).get "line_items" with
            | some (.arr (_ :: _)) => true
            | _ => false) := by
        rcases (Json.obj l).get "line_items" with _ | j1
        · rfl
        · cases j1 with
          | arr l2 => cases l2 <;> rfl
          | null => rfl
          | bool b => rfl
          | num q => rfl
          | str s => rfl
          | obj o => rfl
      have hsum : (match (Json.obj l).get "summary" with
            | some (.obj s) => jsonTruthy ((Json.obj s).getD "grand_total" .null)
            | _ => false) =
          (match (Json.obj l).get "summary" with
            | some s => jsonTruthy (s.getD "grand_total" .null)
            | none => false) := by
        rcases (Json.obj l).get "summary" with _ | j2
        · rfl
        · cases j2 <;> rfl
      simp only [hli, hsum]
  | null => rfl
  | bool b => rfl
  | num q => rfl
  | str s => rfl
  | arr l => rfl

/-- Claim C1, counterexample: this output has a non-null `grand_total`, so
the claim says a row is stored — but the gate tests Python truthiness, so
`grand_total = 0` is discarded and no row is written. -/
theorem C1_counterexample :
    specPricingPersistCond zeroTotalOutput = true ∧
      _validate_pricing_data zeroTotalOutput = false ∧
      extract_pricing_from_document 100 (some zeroTotalOutput) = (none, false) := by
  refine ⟨by decide, by decide, rfl⟩

/-- Claim C1, amended: for a text long enough to be processed, a pricing
row is stored for a parsed output iff it has at least one line item or a
*truthy* (non-null, non-zero, non-empty) `grand_total` in its summary; an
output failing the check is discarded — the function returns `none` and
writes no row.  Reprocessing runs through this same function. -/
theorem C1_validation_gate (n : Nat) (data : Json) (h : 50 ≤ n) :
    ((extract_pricing_from_document n (some data)).2 = true ↔
      specPricingPersistCondAmended data = true) ∧
    (specPricingPersistCondAmended data = false →
      extract_pricing_from_document n (some data) = (none, false)) := by
  unfold extract_pricing_from_document
  rw [if_neg (by omega)]
  simp only [validate_eq_amended]
  cases hA : specPricingPersistCondAmended data <;> simp [hA]

/-- Witness for C1 at a concrete stored output. -/
theorem C1_witness :
    50 ≤ 100 ∧
      (((extract_pricing_from_document 100
            (some (Json.obj [("line_items", Json.arr [Json.num 1])]))).2 = true ↔
          specPricingPersistCondAmended (Json.obj [("line_items", Json.arr [Json.num 1])]) = true) ∧
        (specPricingPersistCondAmended (Json.obj [("line_items", Json.arr [Json.num 1])]) = false →
          extract_pricing_from_document 100
              (some (Json.obj [("line_items", Json.arr [Json.num 1])])) = (none, false))) :=
  ⟨by decide, C1_validation_gate 100 (Json.obj [("line_items", Json.arr [Json.num 1])]) (by decide)⟩

/-- Claim C7: every match `search_similar` returns has similarity at least
`min_similarity` (missing similarities count as 0), and a failure of
either external call — the query embedding or the vector-search RPC —
yields `[]` rather than an exception. -/
theorem C7_search_similar_threshold (emb : Option (List Rat))
    (rpc : Option (List ChunkMatch)) (ms : Rat) :
    (∀ m ∈ search_similar emb rpc ms, ms ≤ m.similarity.getD 0) ∧
    (emb = none → search_similar emb rpc ms = []) ∧
    (rpc = none → search_similar emb rpc ms = []) := by
  refine ⟨?_, ?_, ?_⟩
  · intro m hm
    cases emb with
    | none => simp [search_similar] at hm
    | some e =>
        cases rpc with
        | none => simp [search_similar] at hm
        | some rows =>
            simp only [search_similar] at hm
            have := List.of_mem_filter hm
            simpa using this
  · rintro rfl
    rfl
  · rintro rfl
    cases emb <;> rfl

/-- Witness for C7 at a concrete search. -/
theorem C7_witness :
    (c7row ∈ search_similar (some [1]) (some [c7row]) (3/10)) ∧
      (3/10 : Rat) ≤ c7row.similarity.getD 0 ∧
      search_similar none (some []) (3/10) = [] :=
  have hmem : c7row ∈ search_similar (some [1]) (some [c7row]) (3/10) := by
    have hss : search_similar (some [1]) (some [c7row]) (3/10) = [c7row] := by
      norm_num [search_similar, c7row, List.filter]
    rw [hss]
    exact List.mem_singleton.mpr rfl
  ⟨hmem,
   (C7_search_similar_threshold (some [1]) (some [c7row]) (3/10)).1 c7row hmem,
   (C7_search_similar_threshold none (some []) (3/10)).2.1 rfl⟩

/-- Claim C6, counterexample: here the matched documents have no pricing
rows (there are no truthy document ids, and the store holds nothing), and
the keyword search would find a project — but `find_similar_projects`
returns `[]` without consulting the keyword fallback, because the
no-document-id branch returns early. -/
theorem C6_counterexample :
    find_similar_projects c6chunks c6pricing c6kwRpc "bathroom remodel" 3 = [] ∧
      c6pricing (docIdsOf c6chunks) = some [] ∧
      _find_similar_projects_by_keywords c6kwRpc "bathroom remodel" 3 = [c6kwRow] := by
  refine ⟨?_, rfl, ?_⟩
  · simp [find_similar_projects, c6chunks, docIdsOf, dedupFirst]
  · have hsc : decide ((0 : Rat) < c6kwRow.match_score.getD 0) = true := by
      norm_num [c6kwRow]
    simp [_find_similar_projects_by_keywords, c6kwRpc, List.filter, hsc]

/-- Claim C6, amended: `find_similar_projects` falls back to the keyword
search when the semantic path returns zero chunks, and also when the
chunks carry at least one truthy document id but those documents have no
pricing rows (or the pricing query raises); when chunks match but none
carries a truthy document id it returns `[]` without the keyword fallback;
and when neither path matches the result is `[]`, never an exception. -/
theorem C6_two_tier_fallback (chunks : List ChunkMatch)
    (pricingQuery : List String → Option (List PricingRow))
    (kwRpc : List String → Nat → Option (List PricingRow)) (desc : String) (limit : Nat) :
    (chunks = [] →
      find_similar_projects chunks pricingQuery kwRpc desc limit =
        _find_similar_projects_by_keywords kwRpc desc limit) ∧
    (chunks ≠ [] → docIdsOf chunks ≠ [] →
      (pricingQuery (docIdsOf chunks) = none ∨ pricingQuery (docIdsOf chunks) = some []) →
      find_similar_projects chunks pricingQuery kwRpc desc limit =
        _find_similar_projects_by_keywords kwRpc desc limit) ∧
    (chunks ≠ [] → docIdsOf chunks = [] →
      find_similar_projects chunks pricingQuery kwRpc desc limit = []) ∧
    (chunks = [] → _find_similar_projects_by_keywords kwRpc desc limit = [] →
      find_similar_projects chunks pricingQuery kwRpc desc limit = []) := by
  refine ⟨?_, ?_, ?_, ?_⟩
  · intro h
    unfold find_similar_projects
    rw [if_pos h]
  · intro h hids hq
    unfold find_similar_projects
    rw [if_neg h]
    rcases hq with hq | hq <;> simp [hids, hq]
  · intro h hids
    unfold find_similar_projects
    rw [if_neg h]
    simp [hids]
  · intro h hkw
    unfold find_similar_projects
    rw [if_pos h, hkw]

/-- Witness for C6: with no chunks and an empty keyword result, the
function returns the keyword result, which is `[]`. -/
theorem C6_witness :
    find_similar_projects [] c6wPricing c6wKw "x" 0 =
      _find_similar_projects_by_keywords c6wKw "x" 0 ∧
    find_similar_projects [] c6wPricing c6wKw "x" 0 = [] :=
  ⟨(C6_two_tier_fallback [] c6wPricing c6wKw "x" 0).1 rfl,
   (C6_two_tier_fallback [] c6wPricing c6wKw "x" 0).2.2.2 rfl rfl⟩

/-- Joining never shrinks below the first part. -/
theorem pyJoinStr_length_ge (sep : String) (l : List String) (a : String) :
    a.length ≤ (pyJoinStr sep (a :: l)).length := by
  unfold pyJoinStr
  suffices h : ∀ (l : List String) (acc : String),
      acc.length ≤ (l.foldl (fun acc x => acc ++ sep ++ x) acc).length from h l a
  intro l
  induction l with
  | nil => intro acc; exact Nat.le_refl _
  | cons x xs ih =>
      intro acc
      refine Nat.le_trans ?_ (ih (acc ++ sep ++ x))
      simp only [String.length_append]
      omega

/-- Joining a list headed by a non-empty part is non-empty. -/
theorem pyJoinStr_cons_ne_empty (sep a : String) (l : List String) (h : a ≠ "") :
    pyJoinStr sep (a :: l) ≠ "" := by
  intro he
  have h1 := pyJoinStr_length_ge sep l a
  rw [he] at h1
  have h2 : a.length = 0 := by
    have : String.length "" = 0 := rfl
    omega
  apply h
  cases a with
  | mk data =>
      cases data with
      | nil => rfl
      | cons c cs => simp [String.length] at h2

/-- Claim C8, counterexample: in `historical` mode with one similar
project whose line-item `total_cost` is the string `"99"`, the `,.2f`
format raises; and with one project whose `confidence_score` column is
NULL, `sum(confidences)` raises `TypeError` before anything is rendered.
In both cases the surrounding `except` swallows the error and the block
is silently empty — so outside criteria mode the block *can* be empty. -/
theorem C8_counterexample :
    _build_historical_pricing_context "historical" [c8badRow] 739901 = "" ∧
      _build_historical_pricing_context "historical" [c8nullConfRow] 739901 = "" ∧
      "historical" ≠ PRICING_MODE_CRITERIA ∧ ([c8badRow] : List PricingRow) ≠ [] := by
  refine ⟨rfl, rfl, by decide, by simp⟩

/-- Claim C8, amended: the historical-pricing block is the empty string in
criteria mode; in every other mode, when no similar projects are found it
is the explicit no-data fallback block (with its method note), and when
projects are found it is non-empty provided no error occurs inside the
`try` — neither a NULL `confidence_score` (which makes `sum` raise) nor a
formatting error while rendering a project (a truthy non-numeric amount
raises); the `except` turns any such error into an empty string. -/
theorem C8_historical_block (mode : String) (similar : List PricingRow) (today : Nat) :
    (mode = PRICING_MODE_CRITERIA → _build_historical_pricing_context mode similar today = "") ∧
    (mode ≠ PRICING_MODE_CRITERIA → similar = [] →
      _build_historical_pricing_context mode similar today = historicalNoDataBlock) ∧
    (mode ≠ PRICING_MODE_CRITERIA → similar ≠ [] →
      pySumOpt (similar.map PricingRow.confidence_score) ≠ none →
      allProjectLines today 1 similar ≠ none →
      _build_historical_pricing_context mode similar today ≠ "") := by
  refine ⟨?_, ?_, ?_⟩
  · intro h
    unfold _build_historical_pricing_context
    rw [if_pos h]
  · intro h he
    unfold _build_historical_pricing_context
    rw [if_neg h, if_pos (by rw [he]; rfl)]
  · intro hmode hne hconf hlines
    unfold _build_historical_pricing_context
    rw [if_neg hmode, if_neg (by simp [List.isEmpty_iff, hne])]
    rcases hc : pySumOpt (similar.map PricingRow.confidence_score) with _ | total
    · exact absurd hc hconf
    · simp only [hc]
      rcases hl : allProjectLines today 1 similar with _ | body
      · exact absurd hl hlines
      · simp only [hl]
        split
        · exact pyJoinStr_cons_ne_empty _ _ _ (by decide)
        · exact pyJoinStr_cons_ne_empty _ _ _ (by decide)

/-- Witness for C8 at the three concrete mode/data combinations. -/
theorem C8_witness :
    _build_historical_pricing_context "criteria" [] 0 = "" ∧
      _build_historical_pricing_context "combined" [] 0 = historicalNoDataBlock ∧
      _build_historical_pricing_context "combined" [c8goodRow] 0 ≠ "" :=
  ⟨(C8_historical_block "criteria" [] 0).1 rfl,
   (C8_historical_block "combined" [] 0).2.1 (by decide) rfl,
   (C8_historical_block "combined" [c8goodRow] 0).2.2 (by decide) (by simp)
     (by rw [Option.ne_none_iff_isSome]; rfl)
     (by rw [Option.ne_none_iff_isSome]; rfl)⟩

/-- Claim C4, counterexample: swapping two rows with different non-null
pricing formats changes the aggregate — `pricing_format` is taken from the
first non-null value in the *given list order*, so `_aggregate_patterns`
is not order-independent. -/
theorem C4_counterexample :
    ([c4a, c4b].Perm [c4b, c4a]) ∧
      (_aggregate_patterns [c4a, c4b]).pricing_format ≠
        (_aggregate_patterns [c4b, c4a]).pricing_format := by
  constructor
  · exact List.Perm.swap c4b c4a []
  · have h1 : (_aggregate_patterns [c4a, c4b]).pricing_format = some "per line item" := rfl
    have h2 : (_aggregate_patterns [c4b, c4a]).pricing_format = some "lump sum" := rfl
    rw [h1, h2]
    simp

/-- Claim C4, amended: `_aggregate_patterns` is order-dependent in general
(the counterexample permutes `pricing_format`); the components that do
depend only on the multiset of rows are the document count, the per-level
heading-size means, and the bold/italic emphasis flags. -/
theorem C4_multiset_components (l l' : List FormatPatternRow) (h : l.Perm l') :
    (_aggregate_patterns l).document_count = (_aggregate_patterns l').document_count ∧
    (_aggregate_patterns l).typography.heading_sizes_h1 =
      (_aggregate_patterns l').typography.heading_sizes_h1 ∧
    (_aggregate_patterns l).typography.heading_sizes_h2 =
      (_aggregate_patterns l').typography.heading_sizes_h2 ∧
    (_aggregate_patterns l).typography.heading_sizes_h3 =
      (_aggregate_patterns l').typography.heading_sizes_h3 ∧
    (_aggregate_patterns l).typography.uses_bold_for_emphasis =
      (_aggregate_patterns l').typography.uses_bold_for_emphasis ∧
    (_aggregate_patterns l).typography.uses_italic_for_emphasis =
      (_aggregate_patterns l').typography.uses_italic_for_emphasis := by
  have hlen : l.length = l'.length := h.length_eq
  have hmean : ∀ lev : Typography → Option Rat,
      meanSize (headingSizesAt l lev) = meanSize (headingSizesAt l' lev) := by
    intro lev
    have hp : (headingSizesAt l lev).Perm (headingSizesAt l' lev) := h.filterMap _
    unfold meanSize
    by_cases hc : headingSizesAt l lev = []
    · have hc' : headingSizesAt l' lev = [] := by
        rw [hc] at hp
        exact (hp.symm).eq_nil
      rw [hc, hc']
    · have hc' : headingSizesAt l' lev ≠ [] := by
        intro he
        rw [he] at hp
        exact hc hp.eq_nil
      rw [if_neg (by simpa [List.isEmpty_iff] using hc),
          if_neg (by simpa [List.isEmpty_iff] using hc'),
          hp.sum_eq, hp.length_eq]
  have hbold : l.countP
        (fun p => (p.typography.getD emptyTypography).uses_bold_for_emphasis.getD false) =
      l'.countP
        (fun p => (p.typography.getD emptyTypography).uses_bold_for_emphasis.getD false) :=
    h.countP_eq _
  have hital : l.countP
        (fun p => (p.typography.getD emptyTypography).uses_italic_for_emphasis.getD false) =
      l'.countP
        (fun p => (p.typography.getD emptyTypography).uses_italic_for_emphasis.getD false) :=
    h.countP_eq _
  refine ⟨hlen, hmean _, hmean _, hmean _, ?_, ?_⟩
  · show decide (l.length < 2 * l.countP _) = decide (l'.length < 2 * l'.countP _)
    rw [hlen, hbold]
  · show decide (l.length < 2 * l.countP _) = decide (l'.length < 2 * l'.countP _)
    rw [hlen, hital]

/-- Witness for C4 at a concrete (trivial) permutation. -/
theorem C4_witness :
    ([c4a].Perm [c4a]) ∧
      (_aggregate_patterns [c4a]).document_count = (_aggregate_patterns [c4a]).document_count ∧
      (_aggregate_patterns [c4a]).typography.heading_sizes_h1 =
        (_aggregate_patterns [c4a]).typography.heading_sizes_h1 ∧
      (_aggregate_patterns [c4a]).typography.heading_sizes_h2 =
        (_aggregate_patterns [c4a]).typography.heading_sizes_h2 ∧
      (_aggregate_patterns [c4a]).typography.heading_sizes_h3 =
        (_aggregate_patterns [c4a]).typography.heading_sizes_h3 ∧
      (_aggregate_patterns [c4a]).typography.uses_bold_for_emphasis =
        (_aggregate_patterns [c4a]).typography.uses_bold_for_emphasis ∧
      (_aggregate_patterns [c4a]).typography.uses_italic_for_emphasis =
        (_aggregate_patterns [c4a]).typography.uses_italic_for_emphasis :=
  ⟨List.Perm.refl _, C4_multiset_components [c4a] [c4a] (List.Perm.refl _)⟩

/-- Adding a fresh key appends it. -/
theorem addCount_not_mem (acc : List (String × Nat)) (s : String) (w : Nat)
    (h : s ∉ acc.map Prod.fst) : addCount acc s w = acc ++ [(s, w)] := by
  induction acc with
  | nil => rfl
  | cons kc rest ih =>
      obtain ⟨k, c⟩ := kc
      simp only [List.map_cons, List.mem_cons] at h
      push_neg at h
      simp only [addCount]
      rw [if_neg (fun he => h.1 he.symm), ih h.2]
      rfl

/-- Folding unit counts of distinct fresh keys appends them in order. -/
theorem countsFold (l : List String) : ∀ acc : List (String × Nat), l.Nodup →
    (∀ s ∈ l, s ∉ acc.map Prod.fst) →
    l.foldl (fun m s => addCount m s 1) acc = acc ++ l.map (fun s => (s, 1)) := by
  induction l with
  | nil =>
      intro acc _ _
      simp
  | cons s rest ih =>
      intro acc hnd hmem
      simp only [List.foldl_cons]
      rw [addCount_not_mem acc s 1 (hmem s (by simp))]
      rw [ih (acc ++ [(s, 1)]) hnd.of_cons ?_]
      · simp
      · intro x hx
        rw [List.map_append, List.mem_append]
        push_neg
        refine ⟨hmem x (by simp [hx]), ?_⟩
        simp only [List.map_cons, List.map_nil, List.mem_singleton]
        intro he
        rw [he] at hx
        exact (List.nodup_cons.mp hnd).1 hx

/-- The frequency table of a duplicate-free list is everything at count 1,
in order. -/
theorem countsFirstOcc_nodup (l : List String) (h : l.Nodup) :
    countsFirstOcc l = l.map (fun s => (s, 1)) := by
  unfold countsFirstOcc
  rw [countsFold l [] h (by simp)]
  rfl

/-- Inserting an element whose count dominates the (sorted) rest puts it in
front. -/
theorem insertCountDesc_head (x : String × Nat) (l : List (String × Nat))
    (h : ∀ y ∈ l, y.2 ≤ x.2) : insertCountDesc x l = x :: l := by
  cases l with
  | nil => rfl
  | cons y ys =>
      unfold insertCountDesc
      rw [if_pos (h y (by simp))]

/-- Insertion permutes. -/
theorem insertCountDesc_perm (x : String × Nat) (l : List (String × Nat)) :
    (insertCountDesc x l).Perm (x :: l) := by
  induction l with
  | nil => exact List.Perm.refl _
  | cons y ys ih =>
      unfold insertCountDesc
      split
      · exact List.Perm.refl _
      · exact (ih.cons y).trans (List.Perm.swap x y ys)

/-- Sorting permutes. -/
theorem sortCountDesc_perm (l : List (String × Nat)) : (sortCountDesc l).Perm l := by
  induction l with
  | nil => exact List.Perm.refl _
  | cons x xs ih =>
      exact (insertCountDesc_perm x (sortCountDesc xs)).trans (ih.cons x)

/-- Sorting a constant-count table is the identity (stability). -/
theorem sortCountDesc_const (c : Nat) : ∀ l : List (String × Nat),
    (∀ y ∈ l, y.2 = c) → sortCountDesc l = l := by
  intro l
  induction l with
  | nil => intro _; rfl
  | cons x xs ih =>
      intro h
      have hx : sortCountDesc (x :: xs) = insertCountDesc x (sortCountDesc xs) := rfl
      rw [hx, ih (fun y hy => h y (by simp [hy]))]
      exact insertCountDesc_head x xs
        (fun y hy => by rw [h y (by simp [hy]), h x (by simp)])

/-- The most-common list of a table headed by a dominating entry starts
with that entry's key. -/
theorem mostCommon_head (n : Nat) (hn : 0 < n) (x : String × Nat)
    (rest : List (String × Nat)) (h : ∀ y ∈ rest, y.2 ≤ x.2) :
    (mostCommon n (x :: rest)).head? = some x.1 := by
  unfold mostCommon
  have hsort : sortCountDesc (x :: rest) = insertCountDesc x (sortCountDesc rest) := rfl
  rw [hsort, insertCountDesc_head x _ (fun y hy => h y ((sortCountDesc_perm rest).subset hy))]
  cases n with
  | zero => omega
  | succ m => simp

/-- A non-empty dict has a repr strictly longer than `"{}"`. -/
theorem pyRepr_obj_cons_length (x : String × Json) (xs : List (String × Json)) :
    2 < (pyRepr (Json.obj (x :: xs))).length := by
  obtain ⟨k, v⟩ := x
  have h1 : pyRepr (Json.obj ((k, v) :: xs)) =
      "\x7b" ++ pyJoinStr ", " (("\x27" ++ k ++ "\x27: " ++ pyRepr v) :: pyRepr.reprObj xs) ++
        "\x7d" := rfl
  rw [h1]
  have h2 := pyJoinStr_length_ge ", " (pyRepr.reprObj xs) ("\x27" ++ k ++ "\x27: " ++ pyRepr v)
  simp only [String.length_append] at *
  have h3 : (String.length "\x27") = 1 := rfl
  have h4 : (String.length "\x27: ") = 3 := rfl
  have h5 : (String.length "\x7b") = 1 := rfl
  have h6 : (String.length "\x7d") = 1 := rfl
  omega

/-- After a weight-2 primary entry and two optional weight-1 entries, the
primary key still heads the most-common list (its ties are broken by
insertion order). -/
theorem mostCommon_weighted_head (n : Nat) (hn : 0 < n) (f : String)
    (o1 o2 : Option String) :
    (mostCommon n (addOptCount (addOptCount [(f, 2)] o1 1) o2 1)).head? = some f := by
  have key : ∀ o : Option String, ∀ s1 : String,
      addOptCount [(f, 2), (s1, 1)] o 1 = [(f, 2), (s1, 1)] ∨
      addOptCount [(f, 2), (s1, 1)] o 1 = [(f, 3), (s1, 1)] ∨
      addOptCount [(f, 2), (s1, 1)] o 1 = [(f, 2), (s1, 2)] ∨
      (∃ s2, addOptCount [(f, 2), (s1, 1)] o 1 = [(f, 2), (s1, 1), (s2, 1)]) := by
    intro o s1
    rcases o with _ | s2
    · exact Or.inl rfl
    · by_cases h2 : s2 = ""
      · left
        simp [addOptCount, h2]
      · by_cases h2f : f = s2
        · right; left
          simp [addOptCount, h2, addCount, h2f]
        · by_cases h21 : s1 = s2
          · right; right; left
            simp [addOptCount, h2, addCount, h2f, h21]
          · right; right; right
            exact ⟨s2, by simp [addOptCount, h2, addCount, h2f, h21]⟩
  have key1 : ∀ o : Option String,
      addOptCount [(f, 2)] o 1 = [(f, 2)] ∨
      addOptCount [(f, 2)] o 1 = [(f, 3)] ∨
      (∃ s1, addOptCount [(f, 2)] o 1 = [(f, 2), (s1, 1)]) := by
    intro o
    rcases o with _ | s1
    · exact Or.inl rfl
    · by_cases h1 : s1 = ""
      · left
        simp [addOptCount, h1]
      · by_cases h1f : f = s1
        · right; left
          simp [addOptCount, h1, addCount, h1f]
        · right; right
          exact ⟨s1, by simp [addOptCount, h1, addCount, h1f]⟩
  rcases key1 o1 with h | h | ⟨s1, h⟩ <;> rw [h]
  · rcases key1 o2 with h2 | h2 | ⟨s2, h2⟩ <;> rw [h2]
    · exact mostCommon_head n hn (f, 2) [] (by simp)
    · exact mostCommon_head n hn (f, 3) [] (by simp)
    · exact mostCommon_head n hn (f, 2) [(s2, 1)] (by simp)
  · -- fc = [(f, 3)]
    rcases o2 with _ | s2
    · exact mostCommon_head n hn (f, 3) [] (by simp)
    · by_cases h2 : s2 = ""
      · rw [show addOptCount [(f, 3)] (some s2) 1 = [(f, 3)] by simp [addOptCount, h2]]
        exact mostCommon_head n hn (f, 3) [] (by simp)
      · by_cases h2f : f = s2
        · rw [show addOptCount [(f, 3)] (some s2) 1 = [(f, 4)] by
            simp [addOptCount, h2, addCount, h2f]]
          exact mostCommon_head n hn (f, 4) [] (by simp)
        · rw [show addOptCount [(f, 3)] (some s2) 1 = [(f, 3), (s2, 1)] by
            simp [addOptCount, h2, addCount, h2f]]
          exact mostCommon_head n hn (f, 3) [(s2, 1)] (by simp)
  · rcases key o2 s1 with h2 | h2 | h2 | ⟨s2, h2⟩ <;> rw [h2]
    · exact mostCommon_head n hn (f, 2) [(s1, 1)] (by simp)
    · exact mostCommon_head n hn (f, 3) [(s1, 1)] (by simp)
    · exact mostCommon_head n hn (f, 2) [(s1, 2)] (by simp)
    · exact mostCommon_head n hn (f, 2) [(s1, 1), (s2, 1)] (by simp)

/-- Merging a fresh terminology key appends it. -/
theorem mergeTermOne_not_mem (acc : List (String × Json)) (k : String) (v : Json)
    (h : k ∉ acc.map Prod.fst) : mergeTermOne acc k v = acc ++ [(k, v)] := by
  unfold mergeTermOne
  have hf : acc.find? (fun p => p.1 = k) = none := by
    rw [List.find?_eq_none]
    intro x hx
    simp only [decide_eq_true_eq]
    intro he
    exact h (List.mem_map.mpr ⟨x, hx, he⟩)
  rw [hf]

/-- Folding a duplicate-free terminology dict of fresh keys appends it. -/
theorem mergeTermFold (l : List (String × Json)) : ∀ acc : List (String × Json),
    (l.map Prod.fst).Nodup →
    (∀ k ∈ l.map Prod.fst, k ∉ acc.map Prod.fst) →
    l.foldl (fun m kv => mergeTermOne m kv.1 kv.2) acc = acc ++ l := by
  induction l with
  | nil =>
      intro acc _ _
      simp
  | cons kv rest ih =>
      intro acc hnd hmem
      obtain ⟨k, v⟩ := kv
      simp only [List.foldl_cons]
      rw [mergeTermOne_not_mem acc k v (hmem k (by simp))]
      simp only [List.map_cons] at hnd
      rw [ih (acc ++ [(k, v)]) (List.nodup_cons.mp hnd).2 ?_]
      · simp
      · intro x hx
        rw [List.map_append, List.mem_append]
        push_neg
        refine ⟨hmem x (by simp [hx]), ?_⟩
        simp only [List.map_cons, List.map_nil, List.mem_singleton]
        intro he
        rw [he] at hx
        exact (List.nodup_cons.mp hnd).1 hx

/-- Claim C5, counterexample: aggregating the single row `c5row` does not
return its values unchanged — the duplicate header list collapses to one
entry, and the reshaped typography reports `Calibri` as primary font where
the row's `primary_font` is null. -/
theorem C5_counterexample :
    (_aggregate_patterns [c5row]).section_headers ≠ c5row.section_headers.getD [] ∧
      (_aggregate_patterns [c5row]).typography.primary_font ≠
        (c5row.typography.getD emptyTypography).primary_font := by
  have h1 : (_aggregate_patterns [c5row]).section_headers = ["A"] := rfl
  have h2 : (_aggregate_patterns [c5row]).typography.primary_font = some "Calibri" := rfl
  have h3 : c5row.section_headers.getD [] = ["A", "A"] := rfl
  have h4 : (c5row.typography.getD emptyTypography).primary_font = none := rfl
  rw [h1, h2, h3, h4]
  simp

/-- Claim C5, amended: aggregating the one-element list `[p]` preserves
the row's values up to the aggregation's output shape: the document count
is 1; `pricing_format` is the row's (when truthy); duplicate-free headers
come back unchanged (first 15); a truthy numbering style comes back
unchanged; a duplicate-free terminology dict comes back unchanged; a
present structure dict comes back unchanged; and the reshaped typography
and colors keep the row's primary font and primary text color whenever
those are truthy. -/
theorem C5_single_row_aggregate (p : FormatPatternRow) :
    (_aggregate_patterns [p]).document_count = 1 ∧
    (_aggregate_patterns [p]).pricing_format =
      (match p.pricing_format with
       | some s => if s ≠ "" then some s else none
       | none => none) ∧
    ((p.section_headers.getD []).Nodup →
      (_aggregate_patterns [p]).section_headers = (p.section_headers.getD []).take 15) ∧
    (∀ s, p.numbering_style = some s → s ≠ "" →
      (_aggregate_patterns [p]).numbering_style = s) ∧
    (((p.terminology.getD []).map Prod.fst).Nodup →
      (_aggregate_patterns [p]).terminology = p.terminology.getD []) ∧
    (∀ st, p.«structure» = some st → (_aggregate_patterns [p]).«structure» = st) ∧
    (∀ f, (p.typography.getD emptyTypography).primary_font = some f → f ≠ "" →
      (_aggregate_patterns [p]).typography.primary_font = some f) ∧
    (∀ c, (p.colors.getD emptyColors).primary_text_color = some c → c ≠ "" →
      (_aggregate_patterns [p]).colors.primary_text_color = c) := by
  refine ⟨rfl, ?_, ?_, ?_, ?_, ?_, ?_, ?_⟩
  · show ([p].findSome? fun q =>
        match q.pricing_format with
        | some s => if s ≠ "" then some s else none
        | none => none) = _
    simp only [List.findSome?]
    rcases p.pricing_format with _ | s
    · rfl
    · by_cases hs : s = "" <;> simp [hs]
  · intro hnd
    show mostCommon 15 (countsFirstOcc ([p].flatMap fun q => q.section_headers.getD [])) = _
    have hfl : ([p].flatMap fun q => q.section_headers.getD []) = p.section_headers.getD [] := by
      simp
    rw [hfl, countsFirstOcc_nodup _ hnd]
    unfold mostCommon
    rw [sortCountDesc_const 1 _ (by intro y hy; simp at hy; obtain ⟨s, _, rfl⟩ := hy; rfl)]
    rw [List.map_map]
    rw [show (Prod.fst ∘ fun s : String => (s, 1)) = id from rfl, List.map_id]
  · intro s hs hne
    show (maxByCount ([p].filterMap fun q =>
        match q.numbering_style with
        | some s => if s ≠ "" then some s else none
        | none => none)).getD "decimal" = s
    have : ([p].filterMap fun q =>
        match q.numbering_style with
        | some s => if s ≠ "" then some s else none
        | none => none) = [s] := by
      simp [List.filterMap, hs, hne]
    rw [this]
    rfl
  · intro hnd
    show mergeTerminology [p] = _
    unfold mergeTerminology
    simp only [List.foldl_cons, List.foldl_nil]
    rw [mergeTermFold _ [] hnd (by simp)]
    rfl
  · intro st hst
    show ([p].foldl (fun best q =>
        let struct := q.«structure».getD []
        if (pyRepr (Json.obj best)).length < (pyRepr (Json.obj struct)).length then struct
        else best) []) = st
    simp only [List.foldl_cons, List.foldl_nil, hst, Option.getD_some]
    cases st with
    | nil =>
        rw [if_neg (lt_irrefl _)]
    | cons x xs =>
        rw [if_pos]
        have h2 : (pyRepr (Json.obj [])).length = 2 := rfl
        rw [h2]
        exact pyRepr_obj_cons_length x xs
  · intro f hf hne
    show (mostCommon 3 (fontCounts [p])).head? = some f
    have hfc : fontCounts [p] =
        addOptCount (addOptCount (addOptCount [] (p.typography.getD emptyTypography).primary_font 2)
          (p.typography.getD emptyTypography).heading_font 1)
          (p.typography.getD emptyTypography).body_font 1 := rfl
    rw [hfc, hf]
    have h0 : addOptCount [] (some f) 2 = [(f, 2)] := by
      simp [addOptCount, addCount, hne]
    rw [h0]
    exact mostCommon_weighted_head 3 (by omega) f _ _
  · intro c hc hne
    show ((mostCommon 5 (colorCounts [p])).head?).getD "#000000" = c
    have hcc : colorCounts [p] =
        addOptCount (addOptCount (addOptCount [] (p.colors.getD emptyColors).primary_text_color 2)
          (p.colors.getD emptyColors).heading_color 1)
          (p.colors.getD emptyColors).accent_color 1 := rfl
    rw [hcc, hc]
    have h0 : addOptCount [] (some c) 2 = [(c, 2)] := by
      simp [addOptCount, addCount, hne]
    rw [h0]
    rw [mostCommon_weighted_head 5 (by omega) c _ _]
    rfl

/-- Witness for C5 at the concrete row `c4a` (null-headed, with a truthy
pricing format). -/
theorem C5_witness :
    (_aggregate_patterns [c4a]).document_count = 1 ∧
      (_aggregate_patterns [c4a]).pricing_format =
        (match c4a.pricing_format with
         | some s => if s ≠ "" then some s else none
         | none => none) ∧
      ((c4a.section_headers.getD []).Nodup ∧
        (_aggregate_patterns [c4a]).section_headers = (c4a.section_headers.getD []).take 15) ∧
      (((c4a.terminology.getD []).map Prod.fst).Nodup ∧
        (_aggregate_patterns [c4a]).terminology = c4a.terminology.getD []) :=
  ⟨(C5_single_row_aggregate c4a).1,
   (C5_single_row_aggregate c4a).2.1,
   ⟨by decide, (C5_single_row_aggregate c4a).2.2.1 (by decide)⟩,
   ⟨by decide, (C5_single_row_aggregate c4a).2.2.2.2.1 (by decide)⟩⟩

end Remodly
